import Mathlib

/-!
Verification of the delivery-rate sampler in `src/lib.rs` (crate `dre`).

Shallow embedding conventions:
- `u64` is modelled as `ℕ` (exact arithmetic; the source's debug profile
  panics on overflow/underflow, so claims carry the hypotheses that make
  the arithmetic exact, and `-` is Nat truncated subtraction).
- `Instant` and `Duration` are modelled as `ℕ` nanosecond counts;
  `Instant - Instant` (panics when negative in Rust) is Nat subtraction,
  `Duration::max` is `Nat.max`, `Duration::is_zero` is `= 0`,
  `Duration::as_secs_f64` is division by `1000000000` carried out in `ℚ`
  (exact rationals stand in for `f64`).
- Rust methods taking `&mut self` become functions returning the updated
  state (paired with the return value when there is one).
-/

/-- Per-connection state (`ConnectionState` in `src/lib.rs`). -/
structure ConnectionState where
  delivered : ℕ
  delivered_time : ℕ
  first_sent_time : ℕ
  app_limited : Option ℕ
deriving DecidableEq

/-- Source `TransportSendSequenceSpace` in `src/lib.rs`. -/
structure TransportSendSequenceSpace where
  nxt : ℕ
  una : ℕ
  mss : ℕ
  wnd : ℕ
deriving DecidableEq

/-- Source `TransportSendSequenceSpace::no_packets_in_flight`: `self.nxt == self.una`. -/
def TransportSendSequenceSpace.no_packets_in_flight (s : TransportSendSequenceSpace) : Bool :=
  s.nxt == s.una

/-- Source `ConnectionSenderState` in `src/lib.rs`. -/
structure ConnectionSenderState where
  write_seq : ℕ
  pending_transmissions : ℕ
  lost_out : ℕ
  retrans_out : ℕ
  pipe : ℕ
deriving DecidableEq

/-- Source `ConnectionSenderState::all_lost_packets_retransmitted`: `self.lost_out <= self.retrans_out`. -/
def ConnectionSenderState.all_lost_packets_retransmitted (s : ConnectionSenderState) : Bool :=
  decide (s.lost_out ≤ s.retrans_out)

/-- Source `ConnectionSenderState::not_transmitting_a_packet`: `self.pending_transmissions == 0`. -/
def ConnectionSenderState.not_transmitting_a_packet (s : ConnectionSenderState) : Bool :=
  s.pending_transmissions == 0

/-- Source `PacketState` in `src/lib.rs`: snapshot of connection delivery info at send time. -/
structure PacketState where
  delivered : ℕ
  delivered_time : ℕ
  first_sent_time : ℕ
  is_app_limited : Bool
  sent_time : ℕ
deriving DecidableEq

/-- Source `Packet` in `src/lib.rs`. -/
structure Packet where
  state : PacketState
  data_length : ℕ
deriving DecidableEq

/-- Source `RateSample` in `src/lib.rs` (`delivery_rate: f64` modelled as `ℚ`). -/
structure RateSample where
  delivery_rate : ℚ
  is_app_limited : Bool
  interval : ℕ
  delivered : ℕ
  prior_delivered : ℕ
  prior_time : ℕ
  send_elapsed : ℕ
  ack_elapsed : ℕ
deriving DecidableEq

/-- Source `DetectAppLimitedPhaseParams` in `src/lib.rs`. -/
structure DetectAppLimitedPhaseParams where
  few_data_to_send : Bool
  not_transmitting_a_packet : Bool
  cwnd_not_full : Bool
  all_lost_packets_retransmitted : Bool
  pipe : ℕ
deriving DecidableEq

/-- Source `DetectAppLimitedPhaseParams::in_app_limited_phase`. -/
def DetectAppLimitedPhaseParams.in_app_limited_phase (p : DetectAppLimitedPhaseParams) : Bool :=
  p.few_data_to_send && p.not_transmitting_a_packet && p.cwnd_not_full &&
    p.all_lost_packets_retransmitted

/-- Source `ConnectionState::new`. -/
def ConnectionState.new (now : ℕ) : ConnectionState :=
  { delivered := 0, delivered_time := now, first_sent_time := now, app_limited := none }

/-- Source `ConnectionState::send_packet`: re-anchors `first_sent_time`/`delivered_time`
when no packets are in flight, then snapshots the (updated) state. Returns the
updated connection state paired with the returned `PacketState`. -/
def ConnectionState.send_packet (self : ConnectionState) (send_time : ℕ)
    (send_sequence_space : TransportSendSequenceSpace) : ConnectionState × PacketState :=
  let self :=
    if send_sequence_space.no_packets_in_flight then
      { self with first_sent_time := send_time, delivered_time := send_time }
    else self
  (self,
    { delivered := self.delivered
      delivered_time := self.delivered_time
      first_sent_time := self.first_sent_time
      is_app_limited := self.app_limited.isSome
      sent_time := send_time })

/-- Source `ConnectionState::send_packet_2`: same as `send_packet` but takes the
`no_packets_in_flight` boolean precomputed. -/
def ConnectionState.send_packet_2 (self : ConnectionState) (send_time : ℕ)
    (no_packets_in_flight : Bool) : ConnectionState × PacketState :=
  let self :=
    if no_packets_in_flight then
      { self with first_sent_time := send_time, delivered_time := send_time }
    else self
  (self,
    { delivered := self.delivered
      delivered_time := self.delivered_time
      first_sent_time := self.first_sent_time
      is_app_limited := self.app_limited.isSome
      sent_time := send_time })

/-- The four-way conjunction tested by `ConnectionState::detect_application_limited_phases`
(`few_data_to_send && not_transmitting_a_packet && cwnd_not_full &&
all_lost_packets_retransmitted`), with the first and third conditions computed
inline as in the source. -/
def appLimitedCondition (sender_state : ConnectionSenderState)
    (send_sequence_space : TransportSendSequenceSpace) : Bool :=
  let few_data_to_send :=
    decide (sender_state.write_seq - send_sequence_space.nxt < send_sequence_space.mss)
  let cwnd_not_full := decide (sender_state.pipe < send_sequence_space.wnd)
  few_data_to_send && sender_state.not_transmitting_a_packet && cwnd_not_full &&
    sender_state.all_lost_packets_retransmitted

/-- Source `ConnectionState::detect_application_limited_phases`. -/
def ConnectionState.detect_application_limited_phases (self : ConnectionState)
    (sender_state : ConnectionSenderState)
    (send_sequence_space : TransportSendSequenceSpace) : ConnectionState :=
  if appLimitedCondition sender_state send_sequence_space then
    let last_transmitted_packet_index := self.delivered + sender_state.pipe
    { self with app_limited := some last_transmitted_packet_index }
  else self

/-- Source `ConnectionState::detect_application_limited_phases_2`. -/
def ConnectionState.detect_application_limited_phases_2 (self : ConnectionState)
    (params : DetectAppLimitedPhaseParams) : ConnectionState :=
  if params.in_app_limited_phase then
    let last_transmitted_packet_index := self.delivered + params.pipe
    { self with app_limited := some last_transmitted_packet_index }
  else self

/-- The local `struct PacketStats` inside `ConnectionState::sample_rate`. -/
structure PacketStats where
  prior_time : ℕ
  is_app_limited : Bool
  send_elapsed : ℕ
  ack_elapsed : ℕ
deriving DecidableEq

/-- The mutable state threaded through the `for packet in acked_packets` loop of
`ConnectionState::sample_rate`: the connection state plus the two loop-local
variables `prior_delivered` and `newest_packet_stats`. -/
structure SampleLoopState where
  conn : ConnectionState
  prior_delivered : ℕ
  newest_packet_stats : Option PacketStats
deriving DecidableEq

/-- One iteration of the loop in `ConnectionState::sample_rate`: unconditionally
accumulate `data_length` into `delivered` and set `delivered_time := now`; when
the packet's snapshot `delivered` strictly exceeds `prior_delivered`, record it
as the newest packet and re-anchor `first_sent_time := packet.state.sent_time`. -/
def sampleRateStep (now : ℕ) (acc : SampleLoopState) (packet : Packet) : SampleLoopState :=
  let conn :=
    { acc.conn with
      delivered := acc.conn.delivered + packet.data_length
      delivered_time := now }
  if acc.prior_delivered < packet.state.delivered then
    { conn := { conn with first_sent_time := packet.state.sent_time }
      prior_delivered := packet.state.delivered
      newest_packet_stats := some
        { prior_time := packet.state.delivered_time
          is_app_limited := packet.state.is_app_limited
          send_elapsed := packet.state.sent_time - packet.state.first_sent_time
          ack_elapsed := conn.delivered_time - packet.state.delivered_time } }
  else
    { conn := conn
      prior_delivered := acc.prior_delivered
      newest_packet_stats := acc.newest_packet_stats }

/-- Source `ConnectionState::sample_rate`. Returns the updated connection state paired
with the optional `RateSample`. -/
def ConnectionState.sample_rate (self : ConnectionState) (acked_packets : List Packet)
    (now : ℕ) (min_rtt : ℕ) : ConnectionState × Option RateSample :=
  let loop := acked_packets.foldl (sampleRateStep now) ⟨self, 0, none⟩
  let prior_delivered := loop.prior_delivered
  -- Clear app-limited field if bubble is ACKed and gone
  let self :=
    match loop.conn.app_limited with
    | some app_limited =>
      if app_limited < loop.conn.delivered then { loop.conn with app_limited := none }
      else loop.conn
    | none => loop.conn
  match loop.newest_packet_stats with
  | none => (self, none)
  | some ps =>
    -- Use the longer of the send_elapsed and ack_elapsed
    let interval := max ps.send_elapsed ps.ack_elapsed
    let delivered := self.delivered - prior_delivered
    -- No reliable sample: normally we expect interval >= MinRTT
    if interval < min_rtt then (self, none)
    else if interval = 0 then (self, none)
    else
      let delivery_rate : ℚ := (delivered : ℚ) / ((interval : ℚ) / 1000000000)
      (self, some
        { delivery_rate := delivery_rate
          is_app_limited := ps.is_app_limited
          interval := interval
          delivered := delivered
          prior_delivered := prior_delivered
          prior_time := ps.prior_time
          send_elapsed := ps.send_elapsed
          ack_elapsed := ps.ack_elapsed })

/-- The stats that `sample_rate`'s loop records for a packet chosen as newest. -/
def mkStats (now : ℕ) (p : Packet) : PacketStats :=
  { prior_time := p.state.delivered_time
    is_app_limited := p.state.is_app_limited
    send_elapsed := p.state.sent_time - p.state.first_sent_time
    ack_elapsed := now - p.state.delivered_time }

/-- Modelled from the spec: the "newest" contributing packet of a batch is the
one whose snapshot `delivered` value is the largest, keeping the first one seen
on ties. Used only to compare the spec's selection rule with the source's loop. -/
def specNewestUpd (best q : Packet) : Packet :=
  if best.state.delivered < q.state.delivered then q else best

/-- Modelled from the spec: the newest packet of a batch (first-seen maximum of
the snapshot `delivered` values), or none for the empty batch. -/
def specNewestPacket : List Packet → Option Packet
  | [] => none
  | p :: ps => some (ps.foldl specNewestUpd p)

/-- Modelled from the spec: the measured interval of a batch, i.e. the larger of
the newest packet's `send_elapsed` and `ack_elapsed`. -/
def specMeasuredInterval (acked : List Packet) (now : ℕ) : Option ℕ :=
  (specNewestPacket acked).map fun p =>
    max (p.state.sent_time - p.state.first_sent_time) (now - p.state.delivered_time)

/-- The packet that the source's loop ends up selecting as newest, given the
running `prior_delivered` threshold: the last packet to strictly exceed the
threshold, where each selection raises the threshold to its `delivered` value. -/
def selectNewest (prior_delivered : ℕ) : List Packet → Option Packet
  | [] => none
  | q :: qs =>
    if prior_delivered < q.state.delivered then
      some ((selectNewest q.state.delivered qs).getD q)
    else selectNewest prior_delivered qs

/-- Sum of the `data_length` fields of a batch. -/
def totalDataLength (l : List Packet) : ℕ :=
  (l.map Packet.data_length).sum

/-- One call into the module: the operations of `ConnectionState`. -/
inductive Op where
  | send (send_time : ℕ) (sss : TransportSendSequenceSpace)
  | send2 (send_time : ℕ) (no_packets_in_flight : Bool)
  | detect (sender_state : ConnectionSenderState) (sss : TransportSendSequenceSpace)
  | detect2 (params : DetectAppLimitedPhaseParams)
  | sample (acked_packets : List Packet) (now : ℕ) (min_rtt : ℕ)

/-- Apply one operation: the updated connection state, plus the snapshot
returned when the operation is a send. -/
def Op.apply (op : Op) (s : ConnectionState) : ConnectionState × Option PacketState :=
  match op with
  | .send t sss => ((s.send_packet t sss).1, some (s.send_packet t sss).2)
  | .send2 t b => ((s.send_packet_2 t b).1, some (s.send_packet_2 t b).2)
  | .detect cs sss => (s.detect_application_limited_phases cs sss, none)
  | .detect2 p => (s.detect_application_limited_phases_2 p, none)
  | .sample acked now rtt => ((s.sample_rate acked now rtt).1, none)

/-- Run a sequence of operations from a state. -/
def runOps (s : ConnectionState) : List Op → ConnectionState
  | [] => s
  | op :: ops => runOps (op.apply s).1 ops

/-- The snapshots emitted (by send operations) along a run. -/
def snapshotsFrom (s : ConnectionState) : List Op → List PacketState
  | [] => []
  | op :: ops => ((op.apply s).2).toList ++ snapshotsFrom (op.apply s).1 ops

/-- Whether an operation opens an application-limited bubble (a detect call
whose four-way condition holds). -/
def Op.opensBubble : Op → Bool
  | .detect cs sss => appLimitedCondition cs sss
  | .detect2 p => p.in_app_limited_phase
  | _ => false

/-- The total acknowledged data length an operation submits (zero unless it is
a `sample_rate` call). -/
def Op.ackedLength : Op → ℕ
  | .sample acked _ _ => totalDataLength acked
  | _ => 0

/-- The total acknowledged data length submitted along a sequence of calls. -/
def totalAckedLength (ops : List Op) : ℕ :=
  (ops.map Op.ackedLength).sum

/-- States reachable from `ConnectionState::new` by this module's operations. -/
def Reachable (s : ConnectionState) : Prop :=
  ∃ t ops, runOps (ConnectionState.new t) ops = s

/-- The bubble-lifecycle invariant for a bubble of index `k`: either the bubble
is still open and `delivered` has not passed `k`, or it has been cleared and
`delivered` is strictly past `k`. -/
def BubbleInv (k : ℕ) (s : ConnectionState) : Prop :=
  (s.app_limited = some k ∧ s.delivered ≤ k) ∨ (s.app_limited = none ∧ k < s.delivered)

/-- Whenever a bubble is open, its marked index is at least `delivered`. -/
def AppLimitedInv (s : ConnectionState) : Prop :=
  ∀ k, s.app_limited = some k → s.delivered ≤ k

/-- Concrete connection state with one delivered unit, used by witnesses. -/
def wConn1 : ConnectionState :=
  { delivered := 1, delivered_time := 0, first_sent_time := 0, app_limited := none }

/-- Concrete packet with positive snapshot `delivered`, used by witnesses. -/
def wPacket : Packet :=
  { state := { delivered := 1, delivered_time := 0, first_sent_time := 0,
               is_app_limited := false, sent_time := 2000000000 }
    data_length := 3 }

/-- The newest-packet stats recorded for `wPacket` at `now = 2000000000`. -/
def wStats : PacketStats :=
  { prior_time := 0, is_app_limited := false, send_elapsed := 2000000000,
    ack_elapsed := 2000000000 }

/-- The rate sample produced for `wConn1`/`[wPacket]` at `now = 2000000000`,
`min_rtt = 1000000000`: 3 units over 2 seconds. -/
def wSample : RateSample :=
  { delivery_rate := 3 / 2, is_app_limited := false, interval := 2000000000, delivered := 3,
    prior_delivered := 1, prior_time := 0, send_elapsed := 2000000000,
    ack_elapsed := 2000000000 }

/-- A first-flight packet: snapshot `delivered = 0`, sent 5 seconds after the anchor. -/
def cexPacket : Packet :=
  { state := { delivered := 0, delivered_time := 0, first_sent_time := 0,
               is_app_limited := false, sent_time := 5000000000 }
    data_length := 7 }

/-- State whose `first_sent_time` (3) differs from `cex2Packet.state.sent_time` (7). -/
def cex2Conn : ConnectionState :=
  { delivered := 0, delivered_time := 0, first_sent_time := 3, app_limited := none }

/-- A zero-`delivered` snapshot packet with `sent_time = 7`. -/
def cex2Packet : Packet :=
  { state := { delivered := 0, delivered_time := 0, first_sent_time := 0,
               is_app_limited := false, sent_time := 7 }
    data_length := 2 }

/-- An idle sequence space (`nxt == una`). -/
def wSssIdle : TransportSendSequenceSpace :=
  { nxt := 4, una := 4, mss := 1, wnd := 1 }

/-- Sender state satisfying all four application-limited conditions, `pipe = 0`. -/
def wSender : ConnectionSenderState :=
  { write_seq := 0, pending_transmissions := 0, lost_out := 0, retrans_out := 0, pipe := 0 }

/-- Sequence space used with `wSender`. -/
def wSss : TransportSendSequenceSpace :=
  { nxt := 0, una := 0, mss := 1, wnd := 1 }

/-- Detect params with all four conditions true and `pipe = 5`. -/
def wParams : DetectAppLimitedPhaseParams :=
  { few_data_to_send := true, not_transmitting_a_packet := true, cwnd_not_full := true,
    all_lost_packets_retransmitted := true, pipe := 5 }

/-- The state right after `detect` opens a bubble of index 0 on `ConnectionState.new 0`. -/
def wBubbleState : ConnectionState :=
  { delivered := 0, delivered_time := 0, first_sent_time := 0, app_limited := some 0 }

/-- The snapshot `Op.send 0 wSss` emits from `wBubbleState`. -/
def wSnap : PacketState :=
  { delivered := 0, delivered_time := 0, first_sent_time := 0,
    is_app_limited := true, sent_time := 0 }


theorem loop_characterization (now : ℕ) (l : List Packet) :
    ∀ (c : ConnectionState) (pd : ℕ) (st : Option PacketStats),
      (l.foldl (sampleRateStep now) ⟨c, pd, st⟩).conn.delivered = c.delivered + totalDataLength l ∧
      (l.foldl (sampleRateStep now) ⟨c, pd, st⟩).conn.app_limited = c.app_limited ∧
      (match selectNewest pd l with
       | none =>
         (l.foldl (sampleRateStep now) ⟨c, pd, st⟩).prior_delivered = pd ∧
         (l.foldl (sampleRateStep now) ⟨c, pd, st⟩).newest_packet_stats = st ∧
         (l.foldl (sampleRateStep now) ⟨c, pd, st⟩).conn.first_sent_time = c.first_sent_time
       | some p =>
         (l.foldl (sampleRateStep now) ⟨c, pd, st⟩).prior_delivered = p.state.delivered ∧
         (l.foldl (sampleRateStep now) ⟨c, pd, st⟩).newest_packet_stats = some (mkStats now p) ∧
         (l.foldl (sampleRateStep now) ⟨c, pd, st⟩).conn.first_sent_time = p.state.sent_time) := by
  induction l with
  | nil =>
    intro c pd st
    refine ⟨by simp [totalDataLength], rfl, ?_⟩
    simp [selectNewest]
  | cons q qs ih =>
    intro c pd st
    rw [List.foldl_cons]
    by_cases h : pd < q.state.delivered
    · have hstep : sampleRateStep now ⟨c, pd, st⟩ q =
        ⟨{ c with
            delivered := c.delivered + q.data_length
            delivered_time := now
            first_sent_time := q.state.sent_time },
          q.state.delivered, some (mkStats now q)⟩ := by
        simp [sampleRateStep, mkStats, h]
      rw [hstep]
      obtain ⟨h1, h2, h3⟩ := ih
        { c with
            delivered := c.delivered + q.data_length
            delivered_time := now
            first_sent_time := q.state.sent_time }
        q.state.delivered (some (mkStats now q))
      refine ⟨by simpa [totalDataLength, Nat.add_assoc] using h1, h2, ?_⟩
      simp only [selectNewest, if_pos h]
      cases hsel : selectNewest q.state.delivered qs with
      | none =>
        rw [hsel] at h3
        simpa using h3
      | some r =>
        rw [hsel] at h3
        simpa using h3
    · have hstep : sampleRateStep now ⟨c, pd, st⟩ q =
        ⟨{ c with
            delivered := c.delivered + q.data_length
            delivered_time := now },
          pd, st⟩ := by
        simp [sampleRateStep, h]
      rw [hstep]
      obtain ⟨h1, h2, h3⟩ := ih
        { c with
            delivered := c.delivered + q.data_length
            delivered_time := now }
        pd st
      refine ⟨by simpa [totalDataLength, Nat.add_assoc] using h1, h2, ?_⟩
      simp only [selectNewest, if_neg h]
      exact h3

theorem selectNewest_foldl (l : List Packet) :
    ∀ b : Packet, (selectNewest b.state.delivered l).getD b = l.foldl specNewestUpd b := by
  induction l with
  | nil => intro b; simp [selectNewest]
  | cons q qs ih =>
    intro b
    rw [List.foldl_cons]
    by_cases h : b.state.delivered < q.state.delivered
    · have hupd : specNewestUpd b q = q := by simp [specNewestUpd, h]
      rw [hupd]
      simp only [selectNewest, if_pos h, Option.getD_some]
      exact ih q
    · have hupd : specNewestUpd b q = b := by simp [specNewestUpd, h]
      rw [hupd]
      simp only [selectNewest, if_neg h]
      exact ih b

theorem selectNewest_zero_head (l : List Packet) :
    ∀ b : Packet, b.state.delivered = 0 → 0 < (l.foldl specNewestUpd b).state.delivered →
      selectNewest 0 l = some (l.foldl specNewestUpd b) := by
  induction l with
  | nil =>
    intro b h0 hpos
    rw [List.foldl_nil] at hpos
    omega
  | cons q qs ih =>
    intro b h0 hpos
    rw [List.foldl_cons]
    by_cases h : 0 < q.state.delivered
    · have hupd : specNewestUpd b q = q := by
        simp only [specNewestUpd]
        rw [if_pos (by omega)]
      rw [hupd]
      simp only [selectNewest, if_pos h, Option.some.injEq]
      exact selectNewest_foldl qs q
    · have hupd : specNewestUpd b q = b := by
        simp only [specNewestUpd]
        rw [if_neg (by omega)]
      rw [hupd]
      simp only [selectNewest, if_neg h]
      rw [List.foldl_cons, hupd] at hpos
      exact ih b h0 hpos

theorem selectNewest_spec (l : List Packet) (p : Packet)
    (hp : specNewestPacket l = some p) (hpos : 0 < p.state.delivered) :
    selectNewest 0 l = some p := by
  cases l with
  | nil => simp [specNewestPacket] at hp
  | cons b bs =>
    simp only [specNewestPacket, Option.some.injEq] at hp
    subst hp
    by_cases h : 0 < b.state.delivered
    · simp only [selectNewest, if_pos h, Option.some.injEq]
      exact selectNewest_foldl bs b
    · have h0 : b.state.delivered = 0 := by omega
      have hsel : selectNewest 0 (b :: bs) = selectNewest 0 bs := by
        simp only [selectNewest, if_neg h]
      rw [hsel]
      exact selectNewest_zero_head bs b h0 hpos

theorem selectNewest_eq_none_iff (l : List Packet) :
    ∀ pd, selectNewest pd l = none ↔ ∀ p ∈ l, p.state.delivered ≤ pd := by
  induction l with
  | nil => intro pd; simp [selectNewest]
  | cons q qs ih =>
    intro pd
    by_cases h : pd < q.state.delivered
    · simp only [selectNewest, if_pos h]
      constructor
      · intro hc; exact Option.noConfusion hc
      · intro hall
        exact absurd (hall q (List.mem_cons_self q qs)) (by omega)
    · simp only [selectNewest, if_neg h, List.mem_cons]
      rw [ih pd]
      constructor
      · intro hall p hp
        cases hp with
        | inl hq => subst hq; omega
        | inr hm => exact hall p hm
      · intro hall p hp
        exact hall p (Or.inr hp)

theorem sample_rate_fst (s : ConnectionState) (acked : List Packet) (now min_rtt : ℕ) :
    (s.sample_rate acked now min_rtt).1 =
      (match (acked.foldl (sampleRateStep now) ⟨s, 0, none⟩).conn.app_limited with
       | some a =>
         if a < (acked.foldl (sampleRateStep now) ⟨s, 0, none⟩).conn.delivered then
           { (acked.foldl (sampleRateStep now) ⟨s, 0, none⟩).conn with app_limited := none }
         else (acked.foldl (sampleRateStep now) ⟨s, 0, none⟩).conn
       | none => (acked.foldl (sampleRateStep now) ⟨s, 0, none⟩).conn) := by
  simp only [ConnectionState.sample_rate]
  cases hnew : (acked.foldl (sampleRateStep now) ⟨s, 0, none⟩).newest_packet_stats with
  | none => rfl
  | some ps =>
    by_cases h1 : max ps.send_elapsed ps.ack_elapsed < min_rtt
    · simp [h1]
    · by_cases h2 : max ps.send_elapsed ps.ack_elapsed = 0
      · simp [h1, h2]
      · simp [h1, h2]

theorem sample_rate_state_delivered (s : ConnectionState) (acked : List Packet)
    (now min_rtt : ℕ) :
    (s.sample_rate acked now min_rtt).1.delivered = s.delivered + totalDataLength acked := by
  obtain ⟨h1, h2, -⟩ := loop_characterization now acked s 0 none
  rw [sample_rate_fst]
  cases hax : (acked.foldl (sampleRateStep now) ⟨s, 0, none⟩).conn.app_limited with
  | none => exact h1
  | some a =>
    by_cases hlt : a < (acked.foldl (sampleRateStep now) ⟨s, 0, none⟩).conn.delivered
    · simpa [hlt] using h1
    · simpa [hlt] using h1

theorem sample_rate_state_app_limited (s : ConnectionState) (acked : List Packet)
    (now min_rtt : ℕ) :
    (s.sample_rate acked now min_rtt).1.app_limited =
      (match s.app_limited with
       | some a => if a < s.delivered + totalDataLength acked then none else some a
       | none => none) := by
  obtain ⟨h1, h2, -⟩ := loop_characterization now acked s 0 none
  rw [sample_rate_fst, h2, h1]
  cases hax : s.app_limited with
  | none =>
    rw [hax] at h2
    simpa using h2
  | some a =>
    rw [hax] at h2
    by_cases hlt : a < s.delivered + totalDataLength acked
    · simp [hlt]
    · simpa [hlt] using h2

theorem send_packet_fst_fields (s : ConnectionState) (t : ℕ)
    (sss : TransportSendSequenceSpace) :
    (s.send_packet t sss).1.delivered = s.delivered ∧
    (s.send_packet t sss).1.app_limited = s.app_limited := by
  by_cases h : sss.no_packets_in_flight <;> simp [ConnectionState.send_packet, h]

theorem send_packet_2_fst_fields (s : ConnectionState) (t : ℕ) (b : Bool) :
    (s.send_packet_2 t b).1.delivered = s.delivered ∧
    (s.send_packet_2 t b).1.app_limited = s.app_limited := by
  by_cases h : b <;> simp [ConnectionState.send_packet_2, h]

theorem send_packet_snd_fields (s : ConnectionState) (t : ℕ)
    (sss : TransportSendSequenceSpace) :
    (s.send_packet t sss).2.delivered = s.delivered ∧
    (s.send_packet t sss).2.is_app_limited = s.app_limited.isSome := by
  by_cases h : sss.no_packets_in_flight <;> simp [ConnectionState.send_packet, h]

theorem send_packet_2_snd_fields (s : ConnectionState) (t : ℕ) (b : Bool) :
    (s.send_packet_2 t b).2.delivered = s.delivered ∧
    (s.send_packet_2 t b).2.is_app_limited = s.app_limited.isSome := by
  by_cases h : b <;> simp [ConnectionState.send_packet_2, h]

theorem apply_delivered (op : Op) (s : ConnectionState) :
    (op.apply s).1.delivered = s.delivered + op.ackedLength := by
  cases op with
  | send t sss =>
    simpa [Op.apply, Op.ackedLength] using (send_packet_fst_fields s t sss).1
  | send2 t b =>
    simpa [Op.apply, Op.ackedLength] using (send_packet_2_fst_fields s t b).1
  | detect cs sss =>
    by_cases h : appLimitedCondition cs sss <;>
      simp [Op.apply, Op.ackedLength, ConnectionState.detect_application_limited_phases, h]
  | detect2 p =>
    by_cases h : p.in_app_limited_phase <;>
      simp [Op.apply, Op.ackedLength, ConnectionState.detect_application_limited_phases_2, h]
  | sample acked now rtt =>
    simpa [Op.apply, Op.ackedLength] using sample_rate_state_delivered s acked now rtt

theorem runOps_append (l1 l2 : List Op) :
    ∀ s, runOps s (l1 ++ l2) = runOps (runOps s l1) l2 := by
  induction l1 with
  | nil => intro s; rfl
  | cons op ops ih =>
    intro s
    simp only [List.cons_append, runOps]
    exact ih _

theorem runOps_delivered (ops : List Op) :
    ∀ s, (runOps s ops).delivered = s.delivered + totalAckedLength ops := by
  induction ops with
  | nil => intro s; simp [runOps, totalAckedLength]
  | cons op rest ih =>
    intro s
    simp only [runOps]
    rw [ih, apply_delivered]
    simp [totalAckedLength, Nat.add_assoc]

theorem appLimitedInv_apply (op : Op) (s : ConnectionState) (h : AppLimitedInv s) :
    AppLimitedInv (op.apply s).1 := by
  cases op with
  | send t sss =>
    intro k hk
    obtain ⟨hd, ha⟩ := send_packet_fst_fields s t sss
    simp only [Op.apply] at hk ⊢
    rw [ha] at hk
    rw [hd]
    exact h k hk
  | send2 t b =>
    intro k hk
    obtain ⟨hd, ha⟩ := send_packet_2_fst_fields s t b
    simp only [Op.apply] at hk ⊢
    rw [ha] at hk
    rw [hd]
    exact h k hk
  | detect cs sss =>
    intro k hk
    by_cases hc : appLimitedCondition cs sss
    · simp [Op.apply, ConnectionState.detect_application_limited_phases, hc] at hk ⊢
      omega
    · simp [Op.apply, ConnectionState.detect_application_limited_phases, hc] at hk ⊢
      exact h k hk
  | detect2 p =>
    intro k hk
    by_cases hc : p.in_app_limited_phase
    · simp [Op.apply, ConnectionState.detect_application_limited_phases_2, hc] at hk ⊢
      omega
    · simp [Op.apply, ConnectionState.detect_application_limited_phases_2, hc] at hk ⊢
      exact h k hk
  | sample acked now rtt =>
    intro k hk
    simp only [Op.apply] at hk ⊢
    rw [sample_rate_state_app_limited] at hk
    rw [sample_rate_state_delivered]
    cases hax : s.app_limited with
    | none => rw [hax] at hk; simp at hk
    | some a =>
      rw [hax] at hk
      by_cases hlt : a < s.delivered + totalDataLength acked
      · simp [hlt] at hk
      · simp [hlt] at hk
        omega

theorem appLimitedInv_run (ops : List Op) :
    ∀ s, AppLimitedInv s → AppLimitedInv (runOps s ops) := by
  induction ops with
  | nil => intro s h; exact h
  | cons op rest ih =>
    intro s h
    exact ih _ (appLimitedInv_apply op s h)

theorem reachable_appLimitedInv (s : ConnectionState) (h : Reachable s) : AppLimitedInv s := by
  obtain ⟨t, ops, rfl⟩ := h
  refine appLimitedInv_run ops (ConnectionState.new t) ?_
  intro k hk
  simp [ConnectionState.new] at hk

theorem bubbleInv_apply (k : ℕ) (op : Op) (s : ConnectionState)
    (hinv : BubbleInv k s) (hop : op.opensBubble = false) : BubbleInv k (op.apply s).1 := by
  cases op with
  | send t sss =>
    obtain ⟨hd, ha⟩ := send_packet_fst_fields s t sss
    simp only [Op.apply]
    unfold BubbleInv at hinv ⊢
    rw [hd, ha]
    exact hinv
  | send2 t b =>
    obtain ⟨hd, ha⟩ := send_packet_2_fst_fields s t b
    simp only [Op.apply]
    unfold BubbleInv at hinv ⊢
    rw [hd, ha]
    exact hinv
  | detect cs sss =>
    simp only [Op.opensBubble] at hop
    simp only [Op.apply, ConnectionState.detect_application_limited_phases, hop]
    simpa using hinv
  | detect2 p =>
    simp only [Op.opensBubble] at hop
    simp only [Op.apply, ConnectionState.detect_application_limited_phases_2, hop]
    simpa using hinv
  | sample acked now rtt =>
    simp only [Op.apply]
    unfold BubbleInv at hinv ⊢
    rw [sample_rate_state_app_limited, sample_rate_state_delivered]
    cases hinv with
    | inl hl =>
      obtain ⟨ha, hle⟩ := hl
      rw [ha]
      by_cases hlt : k < s.delivered + totalDataLength acked
      · right
        exact ⟨by simp [hlt], hlt⟩
      · left
        exact ⟨by simp [hlt], by omega⟩
    | inr hr =>
      obtain ⟨ha, hlt⟩ := hr
      rw [ha]
      right
      refine ⟨rfl, ?_⟩
      omega

theorem snapshot_flag_of_inv (k : ℕ) (op : Op) (s : ConnectionState) (σ : PacketState)
    (hinv : BubbleInv k s) (hσ : (op.apply s).2 = some σ) :
    σ.is_app_limited = decide (σ.delivered ≤ k) := by
  cases op with
  | send t sss =>
    simp only [Op.apply, Option.some.injEq] at hσ
    obtain ⟨hd, ha⟩ := send_packet_snd_fields s t sss
    rw [← hσ, hd, ha]
    cases hinv with
    | inl hl =>
      obtain ⟨hs, hle⟩ := hl
      rw [hs]
      simp [hle]
    | inr hr =>
      obtain ⟨hs, hlt⟩ := hr
      rw [hs]
      simp
      omega
  | send2 t b =>
    simp only [Op.apply, Option.some.injEq] at hσ
    obtain ⟨hd, ha⟩ := send_packet_2_snd_fields s t b
    rw [← hσ, hd, ha]
    cases hinv with
    | inl hl =>
      obtain ⟨hs, hle⟩ := hl
      rw [hs]
      simp [hle]
    | inr hr =>
      obtain ⟨hs, hlt⟩ := hr
      rw [hs]
      simp
      omega
  | detect cs sss => simp [Op.apply] at hσ
  | detect2 p => simp [Op.apply] at hσ
  | sample acked now rtt => simp [Op.apply] at hσ

theorem bubbleInv_run (k : ℕ) (ops : List Op) :
    ∀ s, BubbleInv k s → (∀ op ∈ ops, op.opensBubble = false) →
      BubbleInv k (runOps s ops) ∧
      ∀ σ ∈ snapshotsFrom s ops, σ.is_app_limited = decide (σ.delivered ≤ k) := by
  induction ops with
  | nil =>
    intro s h _
    exact ⟨h, by simp [snapshotsFrom]⟩
  | cons op rest ih =>
    intro s h hno
    have hop : op.opensBubble = false := hno op (List.mem_cons_self op rest)
    have hrest : ∀ o ∈ rest, o.opensBubble = false :=
      fun o ho => hno o (List.mem_cons_of_mem op ho)
    obtain ⟨hrun, hsnap⟩ := ih (op.apply s).1 (bubbleInv_apply k op s h hop) hrest
    simp only [runOps, snapshotsFrom]
    refine ⟨hrun, ?_⟩
    intro σ hσ
    rw [List.mem_append] at hσ
    cases hσ with
    | inl hin =>
      cases hout : (op.apply s).2 with
      | none => rw [hout] at hin; simp at hin
      | some σ0 =>
        rw [hout] at hin
        simp only [Option.toList_some, List.mem_singleton] at hin
        subst hin
        exact snapshot_flag_of_inv k op s σ h hout
    | inr hin => exact hsnap σ hin

theorem selectNewest_pos (l : List Packet) :
    ∀ pd p, selectNewest pd l = some p → pd < p.state.delivered := by
  induction l with
  | nil => intro pd p h; exact Option.noConfusion h
  | cons q qs ih =>
    intro pd p h
    by_cases hq : pd < q.state.delivered
    · simp only [selectNewest, if_pos hq, Option.some.injEq] at h
      cases hsel : selectNewest q.state.delivered qs with
      | none =>
        rw [hsel] at h
        simp only [Option.getD_none] at h
        rw [← h]
        exact hq
      | some r =>
        rw [hsel] at h
        simp only [Option.getD_some] at h
        have hr := ih q.state.delivered r hsel
        rw [h] at hr
        omega
    · simp only [selectNewest, if_neg hq] at h
      exact ih pd p h

theorem sample_rate_snd (s : ConnectionState) (acked : List Packet) (now min_rtt : ℕ) :
    (s.sample_rate acked now min_rtt).2 =
      (match (acked.foldl (sampleRateStep now) ⟨s, 0, none⟩).newest_packet_stats with
       | none => none
       | some ps =>
         if max ps.send_elapsed ps.ack_elapsed < min_rtt then none
         else if max ps.send_elapsed ps.ack_elapsed = 0 then none
         else some
           { delivery_rate := (((s.sample_rate acked now min_rtt).1.delivered -
               (acked.foldl (sampleRateStep now) ⟨s, 0, none⟩).prior_delivered : ℕ) : ℚ) /
               ((max ps.send_elapsed ps.ack_elapsed : ℚ) / 1000000000)
             is_app_limited := ps.is_app_limited
             interval := max ps.send_elapsed ps.ack_elapsed
             delivered := (s.sample_rate acked now min_rtt).1.delivered -
               (acked.foldl (sampleRateStep now) ⟨s, 0, none⟩).prior_delivered
             prior_delivered := (acked.foldl (sampleRateStep now) ⟨s, 0, none⟩).prior_delivered
             prior_time := ps.prior_time
             send_elapsed := ps.send_elapsed
             ack_elapsed := ps.ack_elapsed }) := by
  rw [sample_rate_fst]
  simp only [ConnectionState.sample_rate]
  cases hnew : (acked.foldl (sampleRateStep now) ⟨s, 0, none⟩).newest_packet_stats with
  | none => rfl
  | some ps =>
    by_cases h1 : max ps.send_elapsed ps.ack_elapsed < min_rtt
    · simp [h1]
    · by_cases h2 : max ps.send_elapsed ps.ack_elapsed = 0
      · simp [h1, h2]
      · simp [h1, h2]

theorem sample_rate_fst_first_sent (s : ConnectionState) (acked : List Packet)
    (now min_rtt : ℕ) :
    (s.sample_rate acked now min_rtt).1.first_sent_time =
      (acked.foldl (sampleRateStep now) ⟨s, 0, none⟩).conn.first_sent_time := by
  rw [sample_rate_fst]
  cases hax : (acked.foldl (sampleRateStep now) ⟨s, 0, none⟩).conn.app_limited with
  | none => rfl
  | some a =>
    by_cases hlt : a < (acked.foldl (sampleRateStep now) ⟨s, 0, none⟩).conn.delivered <;>
      simp [hlt]

/-- C1 counterexample: the claim "no sample exactly when the batch is empty, the
interval is below min_rtt, or the interval is zero" is false. For
`ConnectionState.new 0` and the batch `[cexPacket]`, the batch is non-empty, the
measured interval of the spec's newest packet is 5000000000 ns, which is neither
below `min_rtt = 1000000000` nor zero, yet `sample_rate` returns no sample:
`cexPacket`'s snapshot `delivered` is 0, so the loop's strict comparison against
the initial `prior_delivered = 0` never records a newest packet. -/
theorem sample_rate_first_flight_counterexample :
    [cexPacket] ≠ ([] : List Packet) ∧
    specMeasuredInterval [cexPacket] 5000000000 = some 5000000000 ∧
    ¬ ((5000000000 : ℕ) < 1000000000) ∧
    (5000000000 : ℕ) ≠ 0 ∧
    ((ConnectionState.new 0).sample_rate [cexPacket] 5000000000 1000000000).2 = none := by
  refine ⟨by simp, by decide, by decide, by decide, by decide⟩

/-- C1 (amended): `sample_rate` returns no sample exactly in three cases — no
packet in the batch has a positive snapshot `delivered` value, so no newest
packet is recorded (this includes the empty batch); or the newest packet's
measured interval `max send_elapsed ack_elapsed` is below `min_rtt`; or that
interval is zero. In every other case it returns a rate sample. -/
theorem sample_rate_none_characterization (s : ConnectionState) (acked : List Packet)
    (now min_rtt : ℕ) :
    ((acked.foldl (sampleRateStep now) ⟨s, 0, none⟩).newest_packet_stats = none ↔
      ∀ p ∈ acked, p.state.delivered = 0) ∧
    ((s.sample_rate acked now min_rtt).2 = none ↔
      match (acked.foldl (sampleRateStep now) ⟨s, 0, none⟩).newest_packet_stats with
      | none => True
      | some ps =>
        max ps.send_elapsed ps.ack_elapsed < min_rtt ∨
        max ps.send_elapsed ps.ack_elapsed = 0) := by
  constructor
  · obtain ⟨-, -, h3⟩ := loop_characterization now acked s 0 none
    cases hsel : selectNewest 0 acked with
    | none =>
      rw [hsel] at h3
      obtain ⟨-, hnewest, -⟩ := h3
      rw [hnewest]
      have hall := (selectNewest_eq_none_iff acked 0).mp hsel
      constructor
      · intro _ p hp
        exact Nat.le_zero.mp (hall p hp)
      · intro _
        rfl
    | some p =>
      rw [hsel] at h3
      obtain ⟨-, hnewest, -⟩ := h3
      rw [hnewest]
      constructor
      · intro hc
        exact Option.noConfusion hc
      · intro hall
        have hz : selectNewest 0 acked = none :=
          (selectNewest_eq_none_iff acked 0).mpr (fun q hq => Nat.le_of_eq (hall q hq))
        rw [hz] at hsel
        exact Option.noConfusion hsel
  · rw [sample_rate_snd]
    cases hnew : (acked.foldl (sampleRateStep now) ⟨s, 0, none⟩).newest_packet_stats with
    | none => simp
    | some ps =>
      by_cases h1 : max ps.send_elapsed ps.ack_elapsed < min_rtt
      · simp [h1]
      · by_cases h2 : max ps.send_elapsed ps.ack_elapsed = 0
        · simp [h1, h2]
        · simp [h1, h2]

/-- C2 counterexample: the claim that every non-empty batch identifies a newest
packet whose `sent_time` is written to the connection's `first_sent_time` fails
on the batch `[cex2Packet]`: the batch is non-empty and the spec's newest packet
is `cex2Packet` (the only one), but the sampler records no newest-packet stats
and leaves `first_sent_time` at 3 instead of setting it to `sent_time = 7`,
because the packet's snapshot `delivered` is 0. -/
theorem newest_packet_zero_delivered_counterexample :
    [cex2Packet] ≠ ([] : List Packet) ∧
    specNewestPacket [cex2Packet] = some cex2Packet ∧
    ([cex2Packet].foldl (sampleRateStep 9) ⟨cex2Conn, 0, none⟩).newest_packet_stats = none ∧
    (cex2Conn.sample_rate [cex2Packet] 9 1).1.first_sent_time = 3 ∧
    cex2Packet.state.sent_time = 7 := by
  refine ⟨by simp, by decide, by decide, by decide, by decide⟩

/-- C2 (amended): for every batch containing at least one packet with a positive
snapshot `delivered` value, the newest contributing packet is the first packet
whose snapshot `delivered` equals the batch's maximum (necessarily positive),
and for that packet only the sampler captures `prior_time = snapshot.delivered_time`,
its `is_app_limited` flag, `send_elapsed = sent_time - snapshot.first_sent_time`,
`ack_elapsed = now - snapshot.delivered_time`, and sets the connection's
`first_sent_time` to that packet's `sent_time`. (A batch whose packets all have
snapshot `delivered = 0` identifies no newest packet; see the counterexample.) -/
theorem newest_packet_characterization (s : ConnectionState) (acked : List Packet)
    (now min_rtt : ℕ) (p : Packet)
    (hp : specNewestPacket acked = some p) (hpos : 0 < p.state.delivered) :
    (acked.foldl (sampleRateStep now) ⟨s, 0, none⟩).prior_delivered = p.state.delivered ∧
    (acked.foldl (sampleRateStep now) ⟨s, 0, none⟩).newest_packet_stats = some
      { prior_time := p.state.delivered_time
        is_app_limited := p.state.is_app_limited
        send_elapsed := p.state.sent_time - p.state.first_sent_time
        ack_elapsed := now - p.state.delivered_time } ∧
    (s.sample_rate acked now min_rtt).1.first_sent_time = p.state.sent_time := by
  obtain ⟨-, -, h3⟩ := loop_characterization now acked s 0 none
  have hsel : selectNewest 0 acked = some p := selectNewest_spec acked p hp hpos
  rw [hsel] at h3
  obtain ⟨hpd, hnewest, hfst⟩ := h3
  refine ⟨hpd, ?_, ?_⟩
  · rw [hnewest]
    rfl
  · rw [sample_rate_fst_first_sent]
    exact hfst

/-- C2 witness: for `wConn1` and the batch `[wPacket]` (snapshot `delivered = 1 > 0`),
the loop records `wPacket` as newest with `send_elapsed = ack_elapsed = 2000000000`
and re-anchors `first_sent_time` to its `sent_time`. -/
theorem newest_packet_characterization_witness :
    ([wPacket].foldl (sampleRateStep 2000000000) ⟨wConn1, 0, none⟩).prior_delivered =
      wPacket.state.delivered ∧
    ([wPacket].foldl (sampleRateStep 2000000000) ⟨wConn1, 0, none⟩).newest_packet_stats = some
      { prior_time := wPacket.state.delivered_time
        is_app_limited := wPacket.state.is_app_limited
        send_elapsed := wPacket.state.sent_time - wPacket.state.first_sent_time
        ack_elapsed := 2000000000 - wPacket.state.delivered_time } ∧
    (wConn1.sample_rate [wPacket] 2000000000 1000000000).1.first_sent_time =
      wPacket.state.sent_time :=
  newest_packet_characterization wConn1 [wPacket] 2000000000 1000000000 wPacket
    (by decide) (by decide)

/-- C3: the interval floor. Whenever the newest-packet stats were recorded,
`sample_rate` returns no sample if `max send_elapsed ack_elapsed < min_rtt`
(regardless of how many bytes were delivered), and an interval exactly equal to
a nonzero `min_rtt` is not rejected: a sample is returned. -/
theorem sample_rate_interval_floor (s : ConnectionState) (acked : List Packet)
    (now min_rtt : ℕ) (ps : PacketStats)
    (h : (acked.foldl (sampleRateStep now) ⟨s, 0, none⟩).newest_packet_stats = some ps) :
    (max ps.send_elapsed ps.ack_elapsed < min_rtt →
      (s.sample_rate acked now min_rtt).2 = none) ∧
    (max ps.send_elapsed ps.ack_elapsed = min_rtt → min_rtt ≠ 0 →
      ((s.sample_rate acked now min_rtt).2).isSome = true) := by
  rw [sample_rate_snd, h]
  constructor
  · intro h1
    simp [h1]
  · intro heq hne
    have h1 : ¬ max ps.send_elapsed ps.ack_elapsed < min_rtt := by omega
    have h2 : ¬ max ps.send_elapsed ps.ack_elapsed = 0 := by omega
    simp [h1, h2]

/-- C3 witness: with `wConn1`, `[wPacket]`, `now = 2000000000` and
`min_rtt = 2000000000`, the recorded interval equals the nonzero `min_rtt`
exactly and a sample is returned. -/
theorem sample_rate_interval_floor_witness :
    (max wStats.send_elapsed wStats.ack_elapsed < 2000000000 →
      (wConn1.sample_rate [wPacket] 2000000000 2000000000).2 = none) ∧
    (max wStats.send_elapsed wStats.ack_elapsed = 2000000000 → (2000000000 : ℕ) ≠ 0 →
      ((wConn1.sample_rate [wPacket] 2000000000 2000000000).2).isSome = true) :=
  sample_rate_interval_floor wConn1 [wPacket] 2000000000 2000000000 wStats (by decide)

/-- C4: given `nxt ≤ write_seq`, `detect_application_limited_phases` sets
`app_limited := some (delivered + pipe)` iff all four conditions hold
(`write_seq - nxt < mss`, `pending_transmissions = 0`, `pipe < wnd`,
`lost_out ≤ retrans_out`); when any condition fails it leaves the whole state
unchanged (in particular it never clears an open bubble). The same holds for
`detect_application_limited_phases_2` with its precomputed conditions. -/
theorem detect_application_limited_spec (s : ConnectionState) (cs : ConnectionSenderState)
    (sss : TransportSendSequenceSpace) (params : DetectAppLimitedPhaseParams)
    (_hwn : sss.nxt ≤ cs.write_seq) :
    (s.detect_application_limited_phases cs sss =
      if cs.write_seq - sss.nxt < sss.mss ∧ cs.pending_transmissions = 0 ∧
          cs.pipe < sss.wnd ∧ cs.lost_out ≤ cs.retrans_out then
        { s with app_limited := some (s.delivered + cs.pipe) }
      else s) ∧
    (s.detect_application_limited_phases_2 params =
      if params.in_app_limited_phase then
        { s with app_limited := some (s.delivered + params.pipe) }
      else s) := by
  constructor
  · have hcond : appLimitedCondition cs sss = true ↔
        (cs.write_seq - sss.nxt < sss.mss ∧ cs.pending_transmissions = 0 ∧
          cs.pipe < sss.wnd ∧ cs.lost_out ≤ cs.retrans_out) := by
      simp [appLimitedCondition, ConnectionSenderState.not_transmitting_a_packet,
        ConnectionSenderState.all_lost_packets_retransmitted, and_assoc]
    by_cases hc : cs.write_seq - sss.nxt < sss.mss ∧ cs.pending_transmissions = 0 ∧
        cs.pipe < sss.wnd ∧ cs.lost_out ≤ cs.retrans_out
    · rw [if_pos hc]
      simp [ConnectionState.detect_application_limited_phases, hcond.mpr hc]
    · rw [if_neg hc]
      have hf : appLimitedCondition cs sss = false := by
        rcases Bool.eq_false_or_eq_true (appLimitedCondition cs sss) with ht | hf
        · exact absurd (hcond.mp ht) hc
        · exact hf
      simp [ConnectionState.detect_application_limited_phases, hf]
  · by_cases hp : params.in_app_limited_phase
    · simp [ConnectionState.detect_application_limited_phases_2, hp]
    · simp [ConnectionState.detect_application_limited_phases_2, hp]

/-- C4 witness: with `wConn1`, `wSender`, `wSss` (all four conditions hold) and
`wParams` (all four booleans true, `pipe = 5`). -/
theorem detect_application_limited_spec_witness :
    (wConn1.detect_application_limited_phases wSender wSss =
      if wSender.write_seq - wSss.nxt < wSss.mss ∧ wSender.pending_transmissions = 0 ∧
          wSender.pipe < wSss.wnd ∧ wSender.lost_out ≤ wSender.retrans_out then
        { wConn1 with app_limited := some (wConn1.delivered + wSender.pipe) }
      else wConn1) ∧
    (wConn1.detect_application_limited_phases_2 wParams =
      if wParams.in_app_limited_phase then
        { wConn1 with app_limited := some (wConn1.delivered + wParams.pipe) }
      else wConn1) :=
  detect_application_limited_spec wConn1 wSender wSss wParams (by decide)

/-- C5: bubble lifecycle. After a detect call whose condition holds opens a
bubble with index `k = delivered + pipe`, then along any sequence of operations
none of which opens a new bubble: every snapshot emitted by a send has
`is_app_limited = true` exactly while the cumulative `delivered` (recorded in
the snapshot) has not strictly exceeded `k`, and the final state's `app_limited`
is still `some k` iff `delivered ≤ k` (so a `sample_rate` call that pushes
`delivered` past `k` clears the bubble during that call, while one leaving
`delivered = k` does not). -/
theorem bubble_lifecycle (s0 : ConnectionState) (cs : ConnectionSenderState)
    (sss : TransportSendSequenceSpace) (k : ℕ) (s : ConnectionState) (ops : List Op)
    (hopen : appLimitedCondition cs sss = true)
    (hk : k = s0.delivered + cs.pipe)
    (hs : s = s0.detect_application_limited_phases cs sss)
    (hno : ∀ op ∈ ops, op.opensBubble = false) :
    (∀ σ ∈ snapshotsFrom s ops, σ.is_app_limited = decide (σ.delivered ≤ k)) ∧
    ((runOps s ops).app_limited = if (runOps s ops).delivered ≤ k then some k else none) := by
  have hsval : s = { s0 with app_limited := some k } := by
    rw [hs]
    simp [ConnectionState.detect_application_limited_phases, hopen, hk]
  have hinv : BubbleInv k s := by
    left
    rw [hsval]
    refine ⟨rfl, ?_⟩
    show s0.delivered ≤ k
    omega
  obtain ⟨hrun, hsnap⟩ := bubbleInv_run k ops s hinv hno
  refine ⟨hsnap, ?_⟩
  cases hrun with
  | inl hl =>
    rw [if_pos hl.2]
    exact hl.1
  | inr hr =>
    obtain ⟨ha, hlt⟩ := hr
    rw [if_neg (by omega : ¬ (runOps s ops).delivered ≤ k)]
    exact ha

/-- C5 witness: opening a bubble of index 0 on a fresh connection and then
sending one packet: the emitted snapshot is app-limited and the bubble stays
open. -/
theorem bubble_lifecycle_witness :
    (wSnap.is_app_limited = decide (wSnap.delivered ≤ 0)) ∧
    ((runOps wBubbleState [Op.send 0 wSss]).app_limited =
      if (runOps wBubbleState [Op.send 0 wSss]).delivered ≤ 0 then some 0 else none) :=
  ⟨(bubble_lifecycle (ConnectionState.new 0) wSender wSss 0 wBubbleState [Op.send 0 wSss]
      (by decide) (by decide) (by decide) (by decide)).1 wSnap (by decide),
   (bubble_lifecycle (ConnectionState.new 0) wSender wSss 0 wBubbleState [Op.send 0 wSss]
      (by decide) (by decide) (by decide) (by decide)).2⟩

/-- C6: from `ConnectionState.new`, across every sequence of operations the
`delivered` counter equals the sum of the `data_length` values of all
acknowledged packets submitted so far (hence never exceeds it), and it is
non-decreasing: extending the call sequence never decreases it. -/
theorem delivered_monotone_and_bounded (t : ℕ) (ops1 ops2 : List Op) :
    (runOps (ConnectionState.new t) ops1).delivered = totalAckedLength ops1 ∧
    (runOps (ConnectionState.new t) ops1).delivered ≤
      (runOps (ConnectionState.new t) (ops1 ++ ops2)).delivered := by
  have h1 : (runOps (ConnectionState.new t) ops1).delivered = totalAckedLength ops1 := by
    rw [runOps_delivered]
    simp [ConnectionState.new]
  refine ⟨h1, ?_⟩
  rw [runOps_append, runOps_delivered ops2]
  omega

/-- C7: for every state reachable from `ConnectionState.new` by this module's
operations, `sample_rate` on the empty batch returns no sample and leaves the
whole connection state (including `app_limited`) unchanged. -/
theorem sample_rate_empty_batch (s : ConnectionState) (now min_rtt : ℕ)
    (h : Reachable s) :
    s.sample_rate [] now min_rtt = (s, none) := by
  have hinv := reachable_appLimitedInv s h
  simp only [ConnectionState.sample_rate, List.foldl_nil]
  cases hax : s.app_limited with
  | none => simp [hax]
  | some a =>
    have hle := hinv a hax
    simp [hax, Nat.not_lt.mpr hle]

/-- C7 witness: the fresh state `ConnectionState.new 0` is reachable and the
empty batch is a no-op on it. -/
theorem sample_rate_empty_batch_witness :
    (ConnectionState.new 0).sample_rate [] 5 3 = (ConnectionState.new 0, none) :=
  sample_rate_empty_batch (ConnectionState.new 0) 5 3 ⟨0, [], rfl⟩

/-- C8: invariant kept by every operation from `ConnectionState.new`: whenever
`app_limited = some k`, the cumulative `delivered` is at most `k`. -/
theorem app_limited_bounds_delivered (s : ConnectionState) (k : ℕ)
    (h : Reachable s) (hk : s.app_limited = some k) : s.delivered ≤ k :=
  reachable_appLimitedInv s h k hk

/-- C8 witness: after a detect2 call with `pipe = 5` on a fresh connection the
bubble index is 5 and `delivered = 0 ≤ 5`. -/
theorem app_limited_bounds_delivered_witness :
    (runOps (ConnectionState.new 0) [Op.detect2 wParams]).delivered ≤ 5 :=
  app_limited_bounds_delivered (runOps (ConnectionState.new 0) [Op.detect2 wParams]) 5
    ⟨0, [Op.detect2 wParams], rfl⟩ (by decide)

/-- C9: `send_packet` and `send_packet_2`. When no packets are in flight
(`nxt == una`, or the precomputed boolean is true), the updated state's and the
returned snapshot's `first_sent_time` and `delivered_time` equal the supplied
send time, regardless of prior state. In every case the snapshot copies the
current (post-reset) `delivered`, `delivered_time`, `first_sent_time`, the
presence of `app_limited`, and the send time; and the two call shapes agree on
identical logical input. -/
theorem send_packet_spec (s : ConnectionState) (t : ℕ)
    (sss : TransportSendSequenceSpace) (b : Bool) :
    (sss.no_packets_in_flight = true →
      (s.send_packet t sss).1.first_sent_time = t ∧
      (s.send_packet t sss).1.delivered_time = t ∧
      (s.send_packet t sss).2.first_sent_time = t ∧
      (s.send_packet t sss).2.delivered_time = t) ∧
    (b = true →
      (s.send_packet_2 t b).1.first_sent_time = t ∧
      (s.send_packet_2 t b).1.delivered_time = t ∧
      (s.send_packet_2 t b).2.first_sent_time = t ∧
      (s.send_packet_2 t b).2.delivered_time = t) ∧
    ((s.send_packet t sss).2 =
      { delivered := (s.send_packet t sss).1.delivered
        delivered_time := (s.send_packet t sss).1.delivered_time
        first_sent_time := (s.send_packet t sss).1.first_sent_time
        is_app_limited := (s.send_packet t sss).1.app_limited.isSome
        sent_time := t }) ∧
    ((s.send_packet_2 t b).2 =
      { delivered := (s.send_packet_2 t b).1.delivered
        delivered_time := (s.send_packet_2 t b).1.delivered_time
        first_sent_time := (s.send_packet_2 t b).1.first_sent_time
        is_app_limited := (s.send_packet_2 t b).1.app_limited.isSome
        sent_time := t }) ∧
    (s.send_packet t sss = s.send_packet_2 t sss.no_packets_in_flight) := by
  refine ⟨?_, ?_, ?_, ?_, rfl⟩
  · intro hb
    simp [ConnectionState.send_packet, hb]
  · intro hb
    simp [ConnectionState.send_packet_2, hb]
  · by_cases hb : sss.no_packets_in_flight <;> simp [ConnectionState.send_packet, hb]
  · by_cases hb : b <;> simp [ConnectionState.send_packet_2, hb]

/-- C9 witness: the idle-reset components of `send_packet_spec` discharged on
`wConn1` with `wSssIdle` (where `nxt == una`) and the boolean shape with `true`. -/
theorem send_packet_spec_witness :
    ((wConn1.send_packet 7 wSssIdle).1.first_sent_time = 7 ∧
     (wConn1.send_packet 7 wSssIdle).1.delivered_time = 7 ∧
     (wConn1.send_packet 7 wSssIdle).2.first_sent_time = 7 ∧
     (wConn1.send_packet 7 wSssIdle).2.delivered_time = 7) ∧
    ((wConn1.send_packet_2 7 true).1.first_sent_time = 7 ∧
     (wConn1.send_packet_2 7 true).1.delivered_time = 7 ∧
     (wConn1.send_packet_2 7 true).2.first_sent_time = 7 ∧
     (wConn1.send_packet_2 7 true).2.delivered_time = 7) :=
  ⟨(send_packet_spec wConn1 7 wSssIdle true).1 (by decide),
   (send_packet_spec wConn1 7 wSssIdle true).2.1 rfl⟩

/-- C10: whenever `sample_rate` returns a sample, the sample's `delivered` field
equals the connection's cumulative `delivered` after the batch minus
`prior_delivered` (the newest packet's snapshot `delivered`), and its
`delivery_rate` equals that difference divided by the interval in seconds
(exact rational arithmetic standing in for `f64`). -/
theorem sample_rate_delivered_and_rate (s : ConnectionState) (acked : List Packet)
    (now min_rtt : ℕ) (rs : RateSample)
    (h : (s.sample_rate acked now min_rtt).2 = some rs) :
    rs.delivered = (s.sample_rate acked now min_rtt).1.delivered - rs.prior_delivered ∧
    rs.delivery_rate = (rs.delivered : ℚ) / ((rs.interval : ℚ) / 1000000000) := by
  rw [sample_rate_snd] at h
  cases hnew : (acked.foldl (sampleRateStep now) ⟨s, 0, none⟩).newest_packet_stats with
  | none =>
    rw [hnew] at h
    exact Option.noConfusion h
  | some ps =>
    rw [hnew] at h
    by_cases h1 : max ps.send_elapsed ps.ack_elapsed < min_rtt
    · simp only [h1, if_true, if_pos h1] at h
      exact Option.noConfusion h
    · by_cases h2 : max ps.send_elapsed ps.ack_elapsed = 0
      · simp only [if_neg h1, if_pos h2] at h
        exact Option.noConfusion h
      · simp only [if_neg h1, if_neg h2, Option.some.injEq] at h
        subst h
        exact ⟨rfl, by simp [Nat.cast_max]⟩

/-- C10 witness: `wConn1` with the one-packet batch `[wPacket]` of length 3 and
`send_elapsed = ack_elapsed = interval = 2 s ≥ min_rtt = 1 s` produces the
sample `wSample` with rate `3 / 2` units per second. -/
theorem sample_rate_delivered_and_rate_witness :
    wSample.delivered =
      (wConn1.sample_rate [wPacket] 2000000000 1000000000).1.delivered -
        wSample.prior_delivered ∧
    wSample.delivery_rate = (wSample.delivered : ℚ) / ((wSample.interval : ℚ) / 1000000000) :=
  sample_rate_delivered_and_rate wConn1 [wPacket] 2000000000 1000000000 wSample (by
    simp [ConnectionState.sample_rate, sampleRateStep, wConn1, wPacket, wSample,
      RateSample.mk.injEq]
    norm_num)
